import Mathlib

/-!
The JNI lifecycle controller of ogles_gpgpu (`jni_wrapper/og_jni_wrapper.cpp`).

A shallow embedding of the controller: its file-level statics become the record
`Statics`, the part of the outside world it acts on (the C++ heap, the JNI global
reference table, the order of calls made to the `Core`, `Disp` and `EGL` facades)
becomes the record `World`, and every JNI entry point becomes a function from a
system state to an `Outcome`.

Modelling conventions.
* Pointers and JNI references are `Option Nat`: `none` is `NULL`, `some a` a handle.
  Handles are drawn from the counter `World.fresh`.
* `assert` is enabled: a failing assertion aborts the process (`Outcome.aborted`).
* The values the facades return (`EGL::createPBufferSurface`, `EGL::activate`,
  `Core::getOutputFrameW/H`, `Core::getOutputTexId`) are inputs of the entry point
  that asks for them (`PrepareEnv`).
* `jint` arithmetic wraps modulo `2^32` (`wrapInt32`); `GLuint` is `Nat` below `2^32`.
* `new unsigned char[n]` aborts for negative `n` and succeeds otherwise; the JNI
  functions `NewDirectByteBuffer` and `NewGlobalRef` succeed (out-of-memory is not
  modelled).
* The result of `EGL::setup()` in `init` only selects a log message, so it is not an
  input of the model. `getTimeMeasurements` touches no state and is left out.
-/

namespace OgJni

/-- The OpenGL enumerators the controller passes to the facades. -/
inductive GLenum where
  | GL_NONE
  | GL_RGBA
  | GL_TEXTURE_2D
  | GL_TEXTURE_EXTERNAL_OES
  deriving DecidableEq, Repr

/-- One call made by the controller to a facade (`Core`, `Disp`, `EGL`, or the
user-defined `ogPipelineSetup`). Instance methods carry the handle they are called on. -/
inductive Call where
  | coreGetInstance (ret : Nat)
  | coreTryEnablePlatformOptimizations
  | ogPipelineSetup (core : Nat)
  | coreCreateRenderDisplay (core : Nat) (ret : Nat)
  | eglSetup
  | coreDestroy
  | eglShutdown
  | eglCreatePBufferSurface (w h : Int)
  | eglActivate
  | coreInit (core : Nat)
  | corePrepare (core : Nat) (w h : Int) (fmt : GLenum)
  | coreGetOutputFrameW (core : Nat)
  | coreGetOutputFrameH (core : Nat)
  | coreGetOutputTexId (core : Nat)
  | dispSetOutputSize (disp : Nat) (w h : Int)
  | dispSetOutputRenderOrientation (disp : Nat) (orientation : Int)
  | dispUseTexture (disp : Nat) (id : Nat) (unit : Nat) (target : GLenum)
  | coreSetInputData (core : Nat) (data : Nat)
  | coreSetInputTexId (core : Nat) (texId : Int) (target : GLenum)
  | coreGetOutputData (core : Nat) (dst : Option Nat)
  | coreProcess (core : Nat)
  | dispRender (disp : Nat)
  deriving DecidableEq, Repr

/-- The file-level statics of `og_jni_wrapper.cpp` (lines 20-32). -/
structure Statics where
  ogCore : Option Nat
  ogDisp : Option Nat
  eglInitRequested : Bool
  ogInitialized : Bool
  outputPxBufNumBytes : Int
  outputPxBuf : Option Nat
  outputPxBufData : Option Nat
  outputFrameSize : Int × Int
  ogInputTexId : Nat
  ogOutputTexId : Nat
  deriving DecidableEq, Repr

/-- The part of the environment the controller acts on. `heap` lists the live
`new[]` blocks as (address, length), `globalRefs` the live JNI global references,
`calls` the facade calls made so far, oldest first. -/
structure World where
  heap : List (Nat × Int)
  globalRefs : List Nat
  fresh : Nat
  calls : List Call
  deriving DecidableEq, Repr

/-- Controller statics together with the environment. -/
structure Sys where
  st : Statics
  w : World
  deriving DecidableEq, Repr

/-- Why an entry point did not return. -/
inductive Fault where
  | assertion
  | nullDeref
  | badAlloc
  deriving DecidableEq, Repr

/-- Result of one entry point: it returned in state `s`, or the process was aborted
with the system in state `s`. -/
inductive Outcome where
  | returned (s : Sys)
  | aborted (f : Fault) (s : Sys)
  deriving DecidableEq, Repr

/-- Values of the statics and of the environment when the process starts. -/
def Sys.start : Sys :=
  { st := { ogCore := none, ogDisp := none, eglInitRequested := false,
            ogInitialized := false, outputPxBufNumBytes := 0, outputPxBuf := none,
            outputPxBufData := none, outputFrameSize := (0, 0), ogInputTexId := 0,
            ogOutputTexId := 0 },
    w := { heap := [], globalRefs := [], fresh := 1, calls := [] } }

/-- Two's-complement wrap of an integer to the range of `jint`. -/
def wrapInt32 (x : Int) : Int := (x + 2147483648) % 4294967296 - 2147483648

/-- Conversion of a `jint` to `GLuint`. -/
def toGLuint (x : Int) : Nat := (x % 4294967296).toNat

/-- Modelled from the spec: the constant `ogles_gpgpu_OGJNIWrapper_RENDER_DISP_MODE_INPUT`
is declared in `og_jni_wrapper.h`, which is not part of the sources; the spec gives the
mode as the enumeration INPUT, OUTPUT, whose first member is taken as 0. -/
def RENDER_DISP_MODE_INPUT : Int := 0

/-- Append one facade call to the log. -/
def logCall (s : Sys) (c : Call) : Sys :=
  { s with w := { s.w with calls := s.w.calls ++ [c] } }

/-- Draw a fresh handle. -/
def bump (s : Sys) : Sys :=
  { s with w := { s.w with fresh := s.w.fresh + 1 } }

/-- Source function `ogCleanupHelper`: when both the alias and the data pointer are set, delete the
global reference, free the block and null both. -/
def ogCleanupHelper (s : Sys) : Sys :=
  match s.st.outputPxBuf, s.st.outputPxBufData with
  | some r, some a =>
    { st := { s.st with outputPxBuf := none, outputPxBufData := none },
      w := { s.w with globalRefs := s.w.globalRefs.erase r,
                      heap := s.w.heap.filter (fun b => b.1 != a) } }
  | _, _ => s

/-- Entry point `Java_ogles_1gpgpu_OGJNIWrapper_init`. -/
def init (s : Sys) (platOpt initEGL createRenderDisp : Bool) : Outcome :=
  if s.st.ogCore.isSome then .aborted .assertion s
  else
    let c := s.w.fresh
    let s1 := logCall (bump s) (.coreGetInstance c)
    let s2 : Sys := { s1 with st := { s1.st with ogCore := some c } }
    let s3 := if platOpt then logCall s2 .coreTryEnablePlatformOptimizations else s2
    let s4 := logCall s3 (.ogPipelineSetup c)
    let s5 : Sys :=
      if createRenderDisp then
        let d := s4.w.fresh
        let t := logCall (bump s4) (.coreCreateRenderDisplay c d)
        { t with st := { t.st with ogDisp := some d } }
      else s4
    let s6 := if initEGL then logCall s5 .eglSetup else s5
    .returned { s6 with st := { s6.st with eglInitRequested := initEGL } }

/-- Entry point `Java_ogles_1gpgpu_OGJNIWrapper_cleanup`. -/
def cleanup (s : Sys) : Outcome :=
  match s.st.ogCore with
  | none => .aborted .assertion s
  | some _ =>
    let s1 := logCall s .coreDestroy
    let s2 : Sys := { s1 with st := { s1.st with ogCore := none } }
    let s3 := ogCleanupHelper s2
    .returned (if s3.st.eglInitRequested then logCall s3 .eglShutdown else s3)

/-- What the facades answer during one `prepare`. -/
structure PrepareEnv where
  createPBufferSurface : Bool
  activate : Bool
  getOutputFrameW : Int
  getOutputFrameH : Int
  getOutputTexId : Nat
  deriving DecidableEq, Repr

/-- Lines 102-127 of `prepare`: everything after the EGL steps. -/
def prepareBody (s : Sys) (c : Nat) (w h : Int) (prepareInput : Bool)
    (e : PrepareEnv) : Outcome :=
  let s1 : Sys :=
    if !s.st.ogInitialized then
      let t := logCall s (.coreInit c)
      { t with st := { t.st with ogInitialized := true } }
    else s
  let s2 := logCall s1 (.corePrepare c w h (if prepareInput then .GL_RGBA else .GL_NONE))
  let s3 := ogCleanupHelper s2
  let s4 := logCall (logCall s3 (.coreGetOutputFrameW c)) (.coreGetOutputFrameH c)
  let s5 : Sys :=
    { s4 with st := { s4.st with outputFrameSize := (e.getOutputFrameW, e.getOutputFrameH) } }
  let n := wrapInt32 (wrapInt32 (s5.st.outputFrameSize.1 * s5.st.outputFrameSize.2) * 4)
  let s6 : Sys := { s5 with st := { s5.st with outputPxBufNumBytes := n } }
  if n < 0 then .aborted .badAlloc s6
  else
    let a := s6.w.fresh
    let s7 : Sys :=
      { st := { s6.st with outputPxBufData := some a },
        w := { s6.w with heap := (a, n) :: s6.w.heap, fresh := a + 1 } }
    -- NewDirectByteBuffer yields a local reference, NewGlobalRef a global one
    let g := s7.w.fresh + 1
    let s8 : Sys :=
      { st := { s7.st with outputPxBuf := some g },
        w := { s7.w with globalRefs := g :: s7.w.globalRefs, fresh := g + 1 } }
    let s9 := logCall s8 (.coreGetOutputTexId c)
    .returned { s9 with st := { s9.st with ogOutputTexId := e.getOutputTexId } }

/-- Entry point `Java_ogles_1gpgpu_OGJNIWrapper_prepare`. -/
def prepare (s : Sys) (w h : Int) (prepareInput : Bool) (e : PrepareEnv) : Outcome :=
  match s.st.ogCore with
  | none => .aborted .assertion s
  | some c =>
    if s.st.eglInitRequested then
      let s1 := logCall s (.eglCreatePBufferSurface w h)
      if !e.createPBufferSurface then .returned s1
      else
        let s2 := logCall s1 .eglActivate
        if !e.activate then .returned s2
        else prepareBody s2 c w h prepareInput e
    else prepareBody s c w h prepareInput e

/-- Entry point `Java_ogles_1gpgpu_OGJNIWrapper_setRenderDisp`. -/
def setRenderDisp (s : Sys) (w h orientation : Int) : Outcome :=
  match s.st.ogInitialized, s.st.ogDisp with
  | true, some d =>
    .returned (logCall (logCall s (.dispSetOutputSize d w h))
      (.dispSetOutputRenderOrientation d orientation))
  | _, _ => .aborted .assertion s

/-- Entry point `Java_ogles_1gpgpu_OGJNIWrapper_setRenderDispShowMode`. -/
def setRenderDispShowMode (s : Sys) (mode : Int) : Outcome :=
  match s.st.ogInitialized, s.st.ogDisp with
  | true, some d =>
    if ¬ (s.st.ogInputTexId > 0) then .aborted .assertion s
    else if ¬ (s.st.ogOutputTexId > 0) then .aborted .assertion s
    else if mode = RENDER_DISP_MODE_INPUT then
      .returned (logCall s (.dispUseTexture d s.st.ogInputTexId 1 .GL_TEXTURE_EXTERNAL_OES))
    else
      .returned (logCall s (.dispUseTexture d s.st.ogOutputTexId 1 .GL_TEXTURE_2D))
  | _, _ => .aborted .assertion s

/-- Entry point `Java_ogles_1gpgpu_OGJNIWrapper_setInputPixels`; `pxInts` is what
`GetIntArrayElements` returned. -/
def setInputPixels (s : Sys) (pxInts : Option Nat) : Outcome :=
  match s.st.ogCore with
  | none => .aborted .assertion s
  | some c =>
    match pxInts with
    | none => .aborted .assertion s
    | some p => .returned (logCall s (.coreSetInputData c p))

/-- Entry point `Java_ogles_1gpgpu_OGJNIWrapper_setInputTexture`: no assertion, `ogCore` is
dereferenced directly. -/
def setInputTexture (s : Sys) (texId : Int) : Outcome :=
  match s.st.ogCore with
  | none => .aborted .nullDeref s
  | some c =>
    let s1 := logCall s (.coreSetInputTexId c texId .GL_TEXTURE_EXTERNAL_OES)
    .returned { s1 with st := { s1.st with ogInputTexId := toGLuint texId } }

/-- Entry point `Java_ogles_1gpgpu_OGJNIWrapper_getOutputPixels`; the value handed back to the
caller is `outputPxBuf` (see `getOutputPixelsResult`). -/
def getOutputPixels (s : Sys) : Outcome :=
  match s.st.ogCore with
  | none => .aborted .assertion s
  | some c => .returned (logCall s (.coreGetOutputData c s.st.outputPxBufData))

/-- The reference `getOutputPixels` returns. -/
def getOutputPixelsResult (s : Sys) : Option Nat := s.st.outputPxBuf

/-- Entry point `Java_ogles_1gpgpu_OGJNIWrapper_process`. -/
def process (s : Sys) : Outcome :=
  match s.st.ogCore with
  | none => .aborted .assertion s
  | some c => .returned (logCall s (.coreProcess c))

/-- Entry point `Java_ogles_1gpgpu_OGJNIWrapper_renderOutput`. -/
def renderOutput (s : Sys) : Outcome :=
  match s.st.ogInitialized, s.st.ogDisp with
  | true, some d => .returned (logCall s (.dispRender d))
  | _, _ => .aborted .assertion s

/-- Entry point `Java_ogles_1gpgpu_OGJNIWrapper_getOutputFrameW`. -/
def getOutputFrameW (s : Sys) : Int := s.st.outputFrameSize.1

/-- Entry point `Java_ogles_1gpgpu_OGJNIWrapper_getOutputFrameH`. -/
def getOutputFrameH (s : Sys) : Int := s.st.outputFrameSize.2

/-- One call of the caller across the boundary, with the answers of the environment
where the entry point asks for some. -/
inductive Op where
  | init (platOpt initEGL createRenderDisp : Bool)
  | cleanup
  | prepare (w h : Int) (prepareInput : Bool) (e : PrepareEnv)
  | setRenderDisp (w h orientation : Int)
  | setRenderDispShowMode (mode : Int)
  | setInputPixels (pxInts : Option Nat)
  | setInputTexture (texId : Int)
  | getOutputPixels
  | process
  | renderOutput
  | getOutputFrameW
  | getOutputFrameH
  deriving DecidableEq, Repr

/-- Dispatch of one call to its entry point. -/
def step (s : Sys) : Op → Outcome
  | .init p e d => init s p e d
  | .cleanup => cleanup s
  | .prepare w h i e => prepare s w h i e
  | .setRenderDisp w h o => setRenderDisp s w h o
  | .setRenderDispShowMode m => setRenderDispShowMode s m
  | .setInputPixels p => setInputPixels s p
  | .setInputTexture t => setInputTexture s t
  | .getOutputPixels => getOutputPixels s
  | .process => process s
  | .renderOutput => renderOutput s
  | .getOutputFrameW => .returned s
  | .getOutputFrameH => .returned s

/-- A call sequence, run until it ends or the process aborts. -/
def run : List Op → Sys → Outcome
  | [], s => .returned s
  | op :: ops, s =>
    match step s op with
    | .returned s' => run ops s'
    | .aborted f s' => .aborted f s'

/-- A `prepare` gets past the EGL steps: no GPU context was requested, or both the
surface creation and the activation succeed. -/
def pastEGL (s : Sys) (e : PrepareEnv) : Bool :=
  !s.st.eglInitRequested || (e.createPBufferSurface && e.activate)

/-- The `jint` value `prepare` computes for the byte count from what the facade reports. -/
def bytesOf (e : PrepareEnv) : Int :=
  wrapInt32 (wrapInt32 (e.getOutputFrameW * e.getOutputFrameH) * 4)

/-- Number of output blocks allocated and not yet freed. -/
def liveBuffers (s : Sys) : Nat := s.w.heap.length

/-- Number of JNI global references created and not yet deleted. -/
def liveAliases (s : Sys) : Nat := s.w.globalRefs.length

/-- The call is a `prepare`. -/
def Op.isPrepare : Op → Bool
  | .prepare _ _ _ _ => true
  | _ => false

/-- The call is a `prepare` that gets past the EGL steps in a session whose `init`
was given `initEGL`. -/
def Op.isFullPrepare (initEGL : Bool) : Op → Bool
  | .prepare _ _ _ e => !initEGL || (e.createPBufferSurface && e.activate)
  | _ => false

/-- The call is a `prepare` whose byte count is not negative as a `jint`. -/
def Op.allocatable : Op → Bool
  | .prepare _ _ _ e => decide (0 ≤ bytesOf e)
  | _ => true

/-- The call is a `setInputTexture` whose id is non-zero as a `GLuint`. -/
def Op.bindsInputTexture : Op → Bool
  | .setInputTexture t => decide (toGLuint t ≠ 0)
  | _ => false

/-- The call is an `init` that asks for a render display. -/
def Op.createsDisplay : Op → Bool
  | .init _ _ d => d
  | _ => false

/-- A state the controller can be in: the process start followed by some call
sequence in which every call returned. -/
def Reachable (s : Sys) : Prop := ∃ ops : List Op, run ops Sys.start = .returned s

/-- The output buffer and its alias are either both absent with nothing live, or both
present and the only live block and global reference. -/
def BufInv (s : Sys) : Prop :=
  (s.st.outputPxBuf = none ∧ s.st.outputPxBufData = none ∧ s.w.heap = [] ∧
    s.w.globalRefs = []) ∨
  (∃ r a n, s.st.outputPxBuf = some r ∧ s.st.outputPxBufData = some a ∧
    s.w.heap = [(a, n)] ∧ s.w.globalRefs = [r])

/-- The buffer pointer and its alias, when set, are handles already drawn: they lie
below the counter `fresh`, so the next block and reference differ from them. -/
def PtrInv (s : Sys) : Prop :=
  (∀ a, s.st.outputPxBufData = some a → a < s.w.fresh) ∧
  (∀ r, s.st.outputPxBuf = some r → r < s.w.fresh)

/-- State after `init(false, false, false)` as first call of the process. -/
def plainSession : Sys :=
  { Sys.start with
    st := { Sys.start.st with ogCore := some 1 },
    w := { Sys.start.w with fresh := 2, calls := [.coreGetInstance 1, .ogPipelineSetup 1] } }

/-- Facade answers for a 64 x 64 output with output texture 3. -/
def env64 : PrepareEnv :=
  { createPBufferSurface := true, activate := true, getOutputFrameW := 64,
    getOutputFrameH := 64, getOutputTexId := 3 }

/-- Facade answers for a 128 x 256 output with output texture 4. -/
def env128x256 : PrepareEnv :=
  { createPBufferSurface := true, activate := true, getOutputFrameW := 128,
    getOutputFrameH := 256, getOutputTexId := 4 }

/-- State after `init(false, false, false)` and `prepare(64, 64, true)` answered by
`env64`, as first calls of the process. -/
def prepared64 : Sys :=
  { st := { ogCore := some 1, ogDisp := none, eglInitRequested := false,
            ogInitialized := true, outputPxBufNumBytes := 16384, outputPxBuf := some 4,
            outputPxBufData := some 2, outputFrameSize := (64, 64), ogInputTexId := 0,
            ogOutputTexId := 3 },
    w := { heap := [(2, 16384)], globalRefs := [4], fresh := 5,
           calls := [.coreGetInstance 1, .ogPipelineSetup 1, .coreInit 1,
                     .corePrepare 1 64 64 .GL_RGBA, .coreGetOutputFrameW 1,
                     .coreGetOutputFrameH 1, .coreGetOutputTexId 1] } }

/-- State after `init(false, true, false)` and `prepare(64, 64, true)` answered by
`env64`, as first calls of the process. -/
def eglPrepared64 : Sys :=
  { st := { ogCore := some 1, ogDisp := none, eglInitRequested := true,
            ogInitialized := true, outputPxBufNumBytes := 16384, outputPxBuf := some 4,
            outputPxBufData := some 2, outputFrameSize := (64, 64), ogInputTexId := 0,
            ogOutputTexId := 3 },
    w := { heap := [(2, 16384)], globalRefs := [4], fresh := 5,
           calls := [.coreGetInstance 1, .ogPipelineSetup 1, .eglSetup,
                     .eglCreatePBufferSurface 64 64, .eglActivate, .coreInit 1,
                     .corePrepare 1 64 64 .GL_RGBA, .coreGetOutputFrameW 1,
                     .coreGetOutputFrameH 1, .coreGetOutputTexId 1] } }

/-- Facade answers reporting an empty 0 x 5 output. -/
def env0x5 : PrepareEnv :=
  { createPBufferSurface := true, activate := true, getOutputFrameW := 0,
    getOutputFrameH := 5, getOutputTexId := 3 }

/-- Facade answers of a `prepare` whose surface creation fails. -/
def envNoSurface : PrepareEnv :=
  { createPBufferSurface := false, activate := true, getOutputFrameW := 128,
    getOutputFrameH := 256, getOutputTexId := 4 }

/-- Inside the range of `jint` the wrap is the identity. -/
theorem wrapInt32_of_range (x : Int) (h0 : -2147483648 ≤ x) (h1 : x < 2147483648) :
    wrapInt32 x = x := by
  unfold wrapInt32
  omega

/-- When W * H * 4 fits a non-negative `jint`, the byte count is that product. -/
theorem bytesOf_of_range (e : PrepareEnv)
    (h0 : 0 ≤ e.getOutputFrameW * e.getOutputFrameH * 4)
    (h1 : e.getOutputFrameW * e.getOutputFrameH * 4 < 2147483648) :
    bytesOf e = e.getOutputFrameW * e.getOutputFrameH * 4 := by
  unfold bytesOf
  have hp : wrapInt32 (e.getOutputFrameW * e.getOutputFrameH)
      = e.getOutputFrameW * e.getOutputFrameH :=
    wrapInt32_of_range _ (by omega) (by omega)
  rw [hp]
  exact wrapInt32_of_range _ (by omega) (by omega)

/-- What `prepareBody` does when the byte count is not negative. -/
theorem prepareBody_returned (s : Sys) (c : Nat) (w h : Int) (i : Bool) (e : PrepareEnv)
    (hn : 0 ≤ bytesOf e) :
    ∃ s', prepareBody s c w h i e = .returned s' ∧
      s'.st.ogCore = s.st.ogCore ∧ s'.st.ogDisp = s.st.ogDisp ∧
      s'.st.eglInitRequested = s.st.eglInitRequested ∧ s'.st.ogInitialized = true ∧
      s'.st.ogInputTexId = s.st.ogInputTexId ∧ s'.st.ogOutputTexId = e.getOutputTexId ∧
      s'.st.outputFrameSize = (e.getOutputFrameW, e.getOutputFrameH) ∧
      s'.st.outputPxBufNumBytes = bytesOf e ∧
      s'.st.outputPxBufData = some s.w.fresh ∧
      s'.st.outputPxBuf = some (s.w.fresh + 2) ∧
      s'.w.heap = (s.w.fresh, bytesOf e) :: (ogCleanupHelper s).w.heap ∧
      s'.w.globalRefs = (s.w.fresh + 2) :: (ogCleanupHelper s).w.globalRefs := by
  have hn' : ¬ bytesOf e < 0 := not_lt.mpr hn
  unfold bytesOf at hn'
  rcases s with ⟨⟨oc, od, er, oi, nb, pb, pd, fs, it, ot⟩, ⟨hp, gr, fr, cl⟩⟩
  cases oi <;> cases pb <;> cases pd <;>
    simp [prepareBody, ogCleanupHelper, logCall, hn', bytesOf]

/-- What `prepareBody` does when the byte count is negative: the prior buffer is
already released when the allocation aborts. -/
theorem prepareBody_aborted (s : Sys) (c : Nat) (w h : Int) (i : Bool) (e : PrepareEnv)
    (hn : bytesOf e < 0) :
    ∃ s', prepareBody s c w h i e = .aborted .badAlloc s' ∧
      s'.st.outputPxBufNumBytes = bytesOf e ∧
      s'.st.outputPxBufData = (ogCleanupHelper s).st.outputPxBufData ∧
      s'.st.outputPxBuf = (ogCleanupHelper s).st.outputPxBuf ∧
      s'.w.heap = (ogCleanupHelper s).w.heap ∧
      s'.w.globalRefs = (ogCleanupHelper s).w.globalRefs := by
  unfold bytesOf at hn
  rcases s with ⟨⟨oc, od, er, oi, nb, pb, pd, fs, it, ot⟩, ⟨hp, gr, fr, cl⟩⟩
  cases oi <;> cases pb <;> cases pd <;>
    simp [prepareBody, ogCleanupHelper, logCall, hn, bytesOf]

/-- A `prepare` that gets past the EGL steps runs `prepareBody` on a state that
differs from the entry state in the call log only. -/
theorem prepare_pastEGL (s : Sys) (c : Nat) (w h : Int) (i : Bool) (e : PrepareEnv)
    (hcore : s.st.ogCore = some c) (hegl : pastEGL s e = true) :
    ∃ t : Sys, prepare s w h i e = prepareBody t c w h i e ∧ t.st = s.st ∧
      t.w.heap = s.w.heap ∧ t.w.globalRefs = s.w.globalRefs ∧ t.w.fresh = s.w.fresh := by
  unfold pastEGL at hegl
  unfold prepare
  rw [hcore]
  cases hr : s.st.eglInitRequested
  · exact ⟨s, by simp, rfl, rfl, rfl, rfl⟩
  · rw [hr] at hegl
    simp at hegl
    refine ⟨logCall (logCall s (.eglCreatePBufferSurface w h)) .eglActivate, ?_, rfl, rfl,
      rfl, rfl⟩
    simp [hegl.1, hegl.2]

/-- The helper `ogCleanupHelper` touches only the buffer fields of the statics. -/
theorem ogCleanupHelper_of_statics (s t : Sys) (hst : t.st = s.st)
    (hh : t.w.heap = s.w.heap) (hg : t.w.globalRefs = s.w.globalRefs) :
    (ogCleanupHelper t).st = (ogCleanupHelper s).st ∧
    (ogCleanupHelper t).w.heap = (ogCleanupHelper s).w.heap ∧
    (ogCleanupHelper t).w.globalRefs = (ogCleanupHelper s).w.globalRefs := by
  unfold ogCleanupHelper
  rw [hst]
  cases s.st.outputPxBuf <;> cases s.st.outputPxBufData <;> simp [hst, hh, hg]

/-- C1 (as amended): when the product W * H * 4 of the reported output size does not
leave the non-negative range of `jint`, a `prepare` that gets past the EGL steps
returns, the size queries answer (W, H), and both the recorded byte count and the
length of the block allocated for `outputPxBufData` are the integer W * H * 4. -/
theorem prepare_byte_count (s : Sys) (w h : Int) (i : Bool) (e : PrepareEnv)
    (hcore : s.st.ogCore ≠ none) (hegl : pastEGL s e = true)
    (h0 : 0 ≤ e.getOutputFrameW * e.getOutputFrameH * 4)
    (h1 : e.getOutputFrameW * e.getOutputFrameH * 4 < 2147483648) :
    ∃ s' a, prepare s w h i e = .returned s' ∧
      getOutputFrameW s' = e.getOutputFrameW ∧ getOutputFrameH s' = e.getOutputFrameH ∧
      s'.st.outputPxBufNumBytes = getOutputFrameW s' * getOutputFrameH s' * 4 ∧
      s'.st.outputPxBufData = some a ∧
      s'.w.heap.head? = some (a, getOutputFrameW s' * getOutputFrameH s' * 4) := by
  obtain ⟨c, hc⟩ := Option.ne_none_iff_exists'.mp hcore
  obtain ⟨t, ht, _, _, _, _⟩ := prepare_pastEGL s c w h i e hc hegl
  have hb := bytesOf_of_range e h0 h1
  obtain ⟨s', hs', _, _, _, _, _, _, hfs, hnb, hpd, _, hheap, _⟩ :=
    prepareBody_returned t c w h i e (by rw [hb]; exact h0)
  refine ⟨s', t.w.fresh, ?_, ?_, ?_, ?_, hpd, ?_⟩
  · rw [ht, hs']
  · simp [getOutputFrameW, hfs]
  · simp [getOutputFrameH, hfs]
  · simp [getOutputFrameW, getOutputFrameH, hfs, hnb, hb]
  · simp [getOutputFrameW, getOutputFrameH, hfs, hheap, hb]

/-- Witness for `prepare_byte_count`: the 64 x 64 output of the spec scenario, 16384
bytes. -/
theorem prepare_byte_count_witness :
    plainSession.st.ogCore ≠ none ∧ pastEGL plainSession env64 = true ∧
    (0 : Int) ≤ env64.getOutputFrameW * env64.getOutputFrameH * 4 ∧
    env64.getOutputFrameW * env64.getOutputFrameH * 4 < 2147483648 ∧
    env64.getOutputFrameW * env64.getOutputFrameH * 4 = 16384 ∧
    ∃ s' a, prepare plainSession 64 64 true env64 = .returned s' ∧
      getOutputFrameW s' = env64.getOutputFrameW ∧
      getOutputFrameH s' = env64.getOutputFrameH ∧
      s'.st.outputPxBufNumBytes = getOutputFrameW s' * getOutputFrameH s' * 4 ∧
      s'.st.outputPxBufData = some a ∧
      s'.w.heap.head? = some (a, getOutputFrameW s' * getOutputFrameH s' * 4) :=
  ⟨by decide, by decide, by decide, by decide, by decide,
    prepare_byte_count plainSession 64 64 true env64 (by decide) (by decide) (by decide)
      (by decide)⟩

/-- C1 (counterexample): for a reported output of 32768 x 32768 the `prepare` does not
return early, yet the recorded byte count and the length of the allocated block are 0,
not the integer 32768 * 32768 * 4 = 4294967296. -/
theorem prepare_byte_count_overflow :
    ∃ s', prepare plainSession 64 64 true
        { createPBufferSurface := true, activate := true, getOutputFrameW := 32768,
          getOutputFrameH := 32768, getOutputTexId := 3 } = .returned s' ∧
      getOutputFrameW s' = 32768 ∧ getOutputFrameH s' = 32768 ∧
      s'.st.outputPxBufNumBytes = 0 ∧ s'.w.heap = [(2, 0)] ∧
      s'.st.outputPxBufNumBytes ≠ getOutputFrameW s' * getOutputFrameH s' * 4 :=
  ⟨_, rfl, rfl, rfl, rfl, rfl, by decide⟩

/-- The state `plainSession` is what the first `init(false, false, false)` produces. -/
theorem init_start_plain : init Sys.start false false false = .returned plainSession := rfl

/-- A `prepare` stopped by one of the EGL steps returns with the statics, the heap and the
global references as they were. -/
theorem prepare_stopped (s : Sys) (c : Nat) (w h : Int) (i : Bool) (e : PrepareEnv)
    (hcore : s.st.ogCore = some c) (hegl : pastEGL s e = false) :
    ∃ s', prepare s w h i e = .returned s' ∧ s'.st = s.st ∧
      s'.w.heap = s.w.heap ∧ s'.w.globalRefs = s.w.globalRefs := by
  unfold prepare
  rw [hcore]
  cases hr : s.st.eglInitRequested
  · simp [pastEGL, hr] at hegl
  · cases hs : e.createPBufferSurface
    · exact ⟨logCall s (.eglCreatePBufferSurface w h), by simp, rfl, rfl, rfl⟩
    · cases ha : e.activate
      · exact ⟨logCall (logCall s (.eglCreatePBufferSurface w h)) .eglActivate, by simp,
          rfl, rfl, rfl⟩
      · simp [pastEGL, hr, hs, ha] at hegl

/-- C5: in a state with a PipelineHandle and a GPU context requested at `init`, when
`createPBufferSurface` answers false, or answers true and `activate` answers false,
`prepare` returns with every static unchanged, the heap and the global references
unchanged, and the only facade calls made are the EGL ones: no `Core` operation. -/
theorem prepare_egl_failure (s : Sys) (w h : Int) (i : Bool) (e : PrepareEnv)
    (hcore : s.st.ogCore ≠ none) (hreq : s.st.eglInitRequested = true)
    (hfail : e.createPBufferSurface = false ∨
      (e.createPBufferSurface = true ∧ e.activate = false)) :
    ∃ s', prepare s w h i e = .returned s' ∧ s'.st = s.st ∧
      s'.w.heap = s.w.heap ∧ s'.w.globalRefs = s.w.globalRefs ∧
      s'.w.calls = s.w.calls ++
        (if e.createPBufferSurface then [.eglCreatePBufferSurface w h, .eglActivate]
         else [.eglCreatePBufferSurface w h]) := by
  obtain ⟨c, hc⟩ := Option.ne_none_iff_exists'.mp hcore
  unfold prepare
  rw [hc]
  rcases hfail with hf | ⟨hs, ha⟩
  · exact ⟨logCall s (.eglCreatePBufferSurface w h), by simp [hreq, hf], rfl, rfl, rfl,
      by simp [hf, logCall]⟩
  · exact ⟨logCall (logCall s (.eglCreatePBufferSurface w h)) .eglActivate,
      by simp [hreq, hs, ha], rfl, rfl, rfl, by simp [hs, logCall]⟩

/-- The frame size is written by `prepare` only. -/
theorem step_frameSize (s s' : Sys) (op : Op) (hop : op.isPrepare = false)
    (h : step s op = .returned s') : s'.st.outputFrameSize = s.st.outputFrameSize := by
  rcases s with ⟨⟨oc, od, er, oi, nb, pb, pd, fs, it, ot⟩, ⟨hp, gr, fr, cl⟩⟩
  cases op with
  | init p e d =>
    cases oc <;> cases p <;> cases e <;> cases d <;>
      simp [step, init, logCall, bump] at h <;> subst h <;> rfl
  | cleanup =>
    cases oc <;> cases er <;> cases pb <;> cases pd <;>
      simp [step, cleanup, ogCleanupHelper, logCall] at h <;> subst h <;> rfl
  | prepare w h i e => simp [Op.isPrepare] at hop
  | setRenderDisp w h o =>
    cases oi <;> cases od <;> simp [step, setRenderDisp, logCall] at h
    subst h
    rfl
  | setRenderDispShowMode m =>
    cases oi <;> cases od <;> simp [step, setRenderDispShowMode, logCall] at h
    split_ifs at h <;> simp at h <;> subst h <;> rfl
  | setInputPixels p =>
    cases oc <;> cases p <;> simp [step, setInputPixels, logCall] at h
    subst h
    rfl
  | setInputTexture t =>
    cases oc <;> simp [step, setInputTexture, logCall] at h
    subst h
    rfl
  | getOutputPixels =>
    cases oc <;> simp [step, getOutputPixels, logCall] at h
    subst h
    rfl
  | process =>
    cases oc <;> simp [step, process, logCall] at h
    subst h
    rfl
  | renderOutput =>
    cases oi <;> cases od <;> simp [step, renderOutput, logCall] at h
    subst h
    rfl
  | getOutputFrameW => simp [step] at h; subst h; rfl
  | getOutputFrameH => simp [step] at h; subst h; rfl

/-- A call sequence without `prepare` leaves the frame size as it is. -/
theorem run_frameSize (ops : List Op) (s s' : Sys)
    (hops : ops.all (fun op => !op.isPrepare) = true)
    (h : run ops s = .returned s') : s'.st.outputFrameSize = s.st.outputFrameSize := by
  induction ops generalizing s with
  | nil =>
    simp [run] at h
    subst h
    rfl
  | cons op ops ih =>
    simp only [List.all_cons, Bool.and_eq_true, Bool.not_eq_true'] at hops
    simp only [run] at h
    cases hstep : step s op with
    | returned s1 =>
      rw [hstep] at h
      rw [ih s1 hops.2 h]
      exact step_frameSize s s1 op hops.1 hstep
    | aborted f s1 =>
      rw [hstep] at h
      cases h

/-- C10: after a `prepare` that got past the EGL steps and returned, with the facade
reporting the output size (W, H), the queries `getOutputFrameW` and `getOutputFrameH`
answer W and H (whatever the arguments w and h were), and they still do after any
sequence of calls that contains no further `prepare`. -/
theorem frame_size_queries (s s1 s2 : Sys) (w h : Int) (i : Bool) (e : PrepareEnv)
    (ops : List Op) (hegl : pastEGL s e = true)
    (hprep : prepare s w h i e = .returned s1)
    (hops : ops.all (fun op => !op.isPrepare) = true)
    (hrun : run ops s1 = .returned s2) :
    getOutputFrameW s1 = e.getOutputFrameW ∧ getOutputFrameH s1 = e.getOutputFrameH ∧
    getOutputFrameW s2 = e.getOutputFrameW ∧ getOutputFrameH s2 = e.getOutputFrameH := by
  have hfs1 : s1.st.outputFrameSize = (e.getOutputFrameW, e.getOutputFrameH) := by
    cases hc : s.st.ogCore with
    | none => simp [prepare, hc] at hprep
    | some c =>
      obtain ⟨t, ht, _, _, _, _⟩ := prepare_pastEGL s c w h i e hc hegl
      rw [ht] at hprep
      by_cases hn : 0 ≤ bytesOf e
      · obtain ⟨s', hs', _, _, _, _, _, _, hfs, _⟩ := prepareBody_returned t c w h i e hn
        rw [hs'] at hprep
        cases hprep
        exact hfs
      · obtain ⟨s', hs', _⟩ := prepareBody_aborted t c w h i e (not_le.mp hn)
        rw [hs'] at hprep
        cases hprep
  have hfs2 := run_frameSize ops s1 s2 hops hrun
  simp [getOutputFrameW, getOutputFrameH, hfs2, hfs1]

/-- After `ogCleanupHelper` in a state satisfying `BufInv` nothing is live. -/
theorem ogCleanupHelper_BufInv (s : Sys) (hinv : BufInv s) :
    (ogCleanupHelper s).st.outputPxBuf = none ∧
    (ogCleanupHelper s).st.outputPxBufData = none ∧
    (ogCleanupHelper s).w.heap = [] ∧ (ogCleanupHelper s).w.globalRefs = [] := by
  rcases hinv with ⟨h1, h2, h3, h4⟩ | ⟨r, a, n, h1, h2, h3, h4⟩
  · simp [ogCleanupHelper, h1, h2, h3, h4]
  · simp [ogCleanupHelper, h1, h2, h3, h4]

/-- A `prepare` that gets past the EGL steps in a state satisfying `BufInv` and returns
leaves exactly one live block and one live global reference, those of the new buffer. -/
theorem prepare_full_BufInv (s s' : Sys) (w h : Int) (i : Bool) (e : PrepareEnv)
    (hinv : BufInv s) (hegl : pastEGL s e = true)
    (hprep : prepare s w h i e = .returned s') :
    s'.st.outputPxBuf = some (s.w.fresh + 2) ∧ s'.st.outputPxBufData = some s.w.fresh ∧
    s'.w.heap = [(s.w.fresh, bytesOf e)] ∧ s'.w.globalRefs = [s.w.fresh + 2] ∧
    s'.st.ogCore = s.st.ogCore ∧ s'.st.eglInitRequested = s.st.eglInitRequested := by
  cases hc : s.st.ogCore with
  | none => simp [prepare, hc] at hprep
  | some c =>
    obtain ⟨t, ht, hst, hth, htg, htf⟩ := prepare_pastEGL s c w h i e hc hegl
    rw [ht] at hprep
    obtain ⟨_, hch, hcg⟩ := ogCleanupHelper_of_statics s t hst hth htg
    obtain ⟨_, _, hh0, hg0⟩ := ogCleanupHelper_BufInv s hinv
    by_cases hn : 0 ≤ bytesOf e
    · obtain ⟨u, hu, h1, _, h3, _, _, _, _, _, h9, h10, h11, h12⟩ :=
        prepareBody_returned t c w h i e hn
      rw [hu] at hprep
      cases hprep
      rw [hch, hh0] at h11
      rw [hcg, hg0] at h12
      rw [htf] at h9 h10 h11 h12
      rw [hst] at h1 h3
      exact ⟨h10, h9, h11, h12, by rw [h1, hc], h3⟩
    · obtain ⟨u, hu, _⟩ := prepareBody_aborted t c w h i e (not_le.mp hn)
      rw [hu] at hprep
      cases hprep

/-- A `prepare` that gets past the EGL steps returns when the byte count is not
negative and a PipelineHandle exists. -/
theorem prepare_full_returns (s : Sys) (w h : Int) (i : Bool) (e : PrepareEnv)
    (hcore : s.st.ogCore ≠ none) (hegl : pastEGL s e = true) (hn : 0 ≤ bytesOf e) :
    ∃ s', prepare s w h i e = .returned s' := by
  obtain ⟨c, hc⟩ := Option.ne_none_iff_exists'.mp hcore
  obtain ⟨t, ht, _⟩ := prepare_pastEGL s c w h i e hc hegl
  obtain ⟨u, hu, _⟩ := prepareBody_returned t c w h i e hn
  exact ⟨u, by rw [ht, hu]⟩

/-- In a session, after one or more `prepare` calls that get past the EGL steps, exactly
one block and one global reference are live. -/
theorem run_prepares_one (ie : Bool) (ops : List Op) (s s' : Sys)
    (hinv : BufInv s) (hreq : s.st.eglInitRequested = ie)
    (hall : ops.all (Op.isFullPrepare ie) = true) (hne : ops ≠ [])
    (hrun : run ops s = .returned s') :
    s'.w.heap.length = 1 ∧ s'.w.globalRefs.length = 1 := by
  induction ops generalizing s with
  | nil => exact absurd rfl hne
  | cons op ops ih =>
    simp only [List.all_cons, Bool.and_eq_true] at hall
    cases op with
    | prepare w h i e =>
      have hegl : pastEGL s e = true := by
        have := hall.1
        simpa [Op.isFullPrepare, pastEGL, hreq] using this
      simp only [run, step] at hrun
      cases hp : prepare s w h i e with
      | aborted f u =>
        rw [hp] at hrun
        cases hrun
      | returned u =>
        rw [hp] at hrun
        obtain ⟨h1, h2, h3, h4, _, h6⟩ := prepare_full_BufInv s u w h i e hinv hegl hp
        cases ops with
        | nil =>
          simp only [run] at hrun
          cases hrun
          simp [h3, h4]
        | cons op2 rest =>
          exact ih u (Or.inr ⟨_, _, _, h1, h2, h3, h4⟩) (by rw [h6, hreq]) hall.2
            (List.cons_ne_nil _ _) hrun
    | _ => simp [Op.isFullPrepare] at hall

/-- In a session with a PipelineHandle, a sequence of `prepare` calls that get past the
EGL steps and ask for non-negative byte counts runs to its end. -/
theorem run_prepares_returns (ie : Bool) (ops : List Op) (s : Sys)
    (hinv : BufInv s) (hcore : s.st.ogCore ≠ none) (hreq : s.st.eglInitRequested = ie)
    (hall : ops.all (Op.isFullPrepare ie) = true)
    (halloc : ops.all Op.allocatable = true) :
    ∃ s', run ops s = .returned s' := by
  induction ops generalizing s with
  | nil => exact ⟨s, rfl⟩
  | cons op ops ih =>
    simp only [List.all_cons, Bool.and_eq_true] at hall halloc
    cases op with
    | prepare w h i e =>
      have hegl : pastEGL s e = true := by
        have := hall.1
        simpa [Op.isFullPrepare, pastEGL, hreq] using this
      have hn : 0 ≤ bytesOf e := by
        have := halloc.1
        simpa [Op.allocatable] using this
      obtain ⟨u, hu⟩ := prepare_full_returns s w h i e hcore hegl hn
      obtain ⟨h1, h2, h3, h4, h5, h6⟩ := prepare_full_BufInv s u w h i e hinv hegl hu
      obtain ⟨v, hv⟩ := ih u (Or.inr ⟨_, _, _, h1, h2, h3, h4⟩) (by rw [h5]; exact hcore)
        (by rw [h6, hreq]) hall.2 halloc.2
      exact ⟨v, by simp only [run, step, hu, hv]⟩
    | _ => simp [Op.isFullPrepare] at hall

/-- The invariant `BufInv` only reads the buffer fields, the heap and the global references. -/
theorem BufInv_congr (s t : Sys) (hinv : BufInv s)
    (h1 : t.st.outputPxBuf = s.st.outputPxBuf)
    (h2 : t.st.outputPxBufData = s.st.outputPxBufData)
    (h3 : t.w.heap = s.w.heap) (h4 : t.w.globalRefs = s.w.globalRefs) : BufInv t := by
  unfold BufInv at hinv ⊢
  rw [h1, h2, h3, h4]
  exact hinv

/-- Every entry point that returns keeps `BufInv`. -/
theorem step_BufInv (s s' : Sys) (op : Op) (hinv : BufInv s)
    (hs : step s op = .returned s') : BufInv s' := by
  cases op with
  | prepare w h i e =>
    simp only [step] at hs
    by_cases hegl : pastEGL s e = true
    · obtain ⟨h1, h2, h3, h4, _, _⟩ := prepare_full_BufInv s s' w h i e hinv hegl hs
      exact Or.inr ⟨_, _, _, h1, h2, h3, h4⟩
    · cases hc : s.st.ogCore with
      | none => simp [prepare, hc] at hs
      | some c =>
        obtain ⟨u, hu, hst, hh, hg⟩ :=
          prepare_stopped s c w h i e hc (by simpa using hegl)
        rw [hu] at hs
        cases hs
        exact BufInv_congr s s' hinv (by rw [hst]) (by rw [hst]) hh hg
  | cleanup =>
    simp only [step, cleanup] at hs
    cases hc : s.st.ogCore with
    | none => simp [hc] at hs
    | some c =>
      simp only [hc] at hs
      obtain ⟨h1, h2, h3, h4⟩ := ogCleanupHelper_BufInv
        { (logCall s .coreDestroy) with st := { (logCall s .coreDestroy).st with ogCore := none } }
        (BufInv_congr s _ hinv rfl rfl rfl rfl)
      cases hs
      split
      · exact Or.inl ⟨h1, h2, h3, h4⟩
      · exact Or.inl ⟨h1, h2, h3, h4⟩
  | init p e d =>
    refine BufInv_congr s s' hinv ?_ ?_ ?_ ?_ <;>
      (rcases s with ⟨⟨oc, od, er, oi, nb, pb, pd, fs, it, ot⟩, ⟨hp, gr, fr, cl⟩⟩
       cases oc <;> cases p <;> cases e <;> cases d <;>
         simp [step, init, logCall, bump] at hs <;> subst hs <;> rfl)
  | setRenderDisp w h o =>
    refine BufInv_congr s s' hinv ?_ ?_ ?_ ?_ <;>
      (rcases s with ⟨⟨oc, od, er, oi, nb, pb, pd, fs, it, ot⟩, ⟨hp, gr, fr, cl⟩⟩
       cases oi <;> cases od <;> simp [step, setRenderDisp, logCall] at hs
       subst hs
       rfl)
  | setRenderDispShowMode m =>
    refine BufInv_congr s s' hinv ?_ ?_ ?_ ?_ <;>
      (rcases s with ⟨⟨oc, od, er, oi, nb, pb, pd, fs, it, ot⟩, ⟨hp, gr, fr, cl⟩⟩
       cases oi <;> cases od <;> simp [step, setRenderDispShowMode, logCall] at hs
       split_ifs at hs <;> simp at hs <;> subst hs <;> rfl)
  | setInputPixels q =>
    refine BufInv_congr s s' hinv ?_ ?_ ?_ ?_ <;>
      (rcases s with ⟨⟨oc, od, er, oi, nb, pb, pd, fs, it, ot⟩, ⟨hp, gr, fr, cl⟩⟩
       cases oc <;> cases q <;> simp [step, setInputPixels, logCall] at hs
       subst hs
       rfl)
  | setInputTexture t =>
    refine BufInv_congr s s' hinv ?_ ?_ ?_ ?_ <;>
      (rcases s with ⟨⟨oc, od, er, oi, nb, pb, pd, fs, it, ot⟩, ⟨hp, gr, fr, cl⟩⟩
       cases oc <;> simp [step, setInputTexture, logCall] at hs
       subst hs
       rfl)
  | getOutputPixels =>
    refine BufInv_congr s s' hinv ?_ ?_ ?_ ?_ <;>
      (rcases s with ⟨⟨oc, od, er, oi, nb, pb, pd, fs, it, ot⟩, ⟨hp, gr, fr, cl⟩⟩
       cases oc <;> simp [step, getOutputPixels, logCall] at hs
       subst hs
       rfl)
  | process =>
    refine BufInv_congr s s' hinv ?_ ?_ ?_ ?_ <;>
      (rcases s with ⟨⟨oc, od, er, oi, nb, pb, pd, fs, it, ot⟩, ⟨hp, gr, fr, cl⟩⟩
       cases oc <;> simp [step, process, logCall] at hs
       subst hs
       rfl)
  | renderOutput =>
    refine BufInv_congr s s' hinv ?_ ?_ ?_ ?_ <;>
      (rcases s with ⟨⟨oc, od, er, oi, nb, pb, pd, fs, it, ot⟩, ⟨hp, gr, fr, cl⟩⟩
       cases oi <;> cases od <;> simp [step, renderOutput, logCall] at hs
       subst hs
       rfl)
  | getOutputFrameW =>
    simp only [step] at hs
    cases hs
    exact hinv
  | getOutputFrameH =>
    simp only [step] at hs
    cases hs
    exact hinv

/-- Every call sequence that returns keeps `BufInv`. -/
theorem run_BufInv (ops : List Op) (s s' : Sys) (hinv : BufInv s)
    (h : run ops s = .returned s') : BufInv s' := by
  induction ops generalizing s with
  | nil =>
    simp only [run] at h
    cases h
    exact hinv
  | cons op ops ih =>
    simp only [run] at h
    cases hstep : step s op with
    | returned s1 =>
      rw [hstep] at h
      exact ih s1 (step_BufInv s s1 op hinv hstep) h
    | aborted f s1 =>
      rw [hstep] at h
      cases h

/-- Every reachable state satisfies `BufInv`. -/
theorem Reachable.bufInv (s : Sys) (hr : Reachable s) : BufInv s := by
  obtain ⟨ops, h⟩ := hr
  exact run_BufInv ops Sys.start s (Or.inl ⟨rfl, rfl, rfl, rfl⟩) h

/-- The state `prepared64` is reached by `init(false, false, false)`, `prepare(64, 64, true)`. -/
theorem run_prepared64 :
    run [.init false false false, .prepare 64 64 true env64] Sys.start
      = .returned prepared64 := rfl

/-- The state `eglPrepared64` is reached by `init(false, true, false)`, `prepare(64, 64, true)`. -/
theorem run_eglPrepared64 :
    run [.init false true false, .prepare 64 64 true env64] Sys.start
      = .returned eglPrepared64 := rfl

/-- An `init` in a state without PipelineHandle returns with a handle, the requested
EGL flag, and the buffer fields, heap and global references as they were. -/
theorem init_returns (s : Sys) (p ie d : Bool) (hcore : s.st.ogCore = none) :
    ∃ s', init s p ie d = .returned s' ∧ s'.st.ogCore ≠ none ∧
      s'.st.eglInitRequested = ie ∧ s'.st.outputPxBuf = s.st.outputPxBuf ∧
      s'.st.outputPxBufData = s.st.outputPxBufData ∧ s'.w.heap = s.w.heap ∧
      s'.w.globalRefs = s.w.globalRefs := by
  rcases s with ⟨⟨oc, od, er, oi, nb, pb, pd, fs, it, ot⟩, ⟨hp, gr, fr, cl⟩⟩
  simp only at hcore
  subst hcore
  cases p <;> cases ie <;> cases d <;> simp [init, logCall, bump]

/-- A `prepare` that allocates draws three handles: the block, the local and the global
reference. -/
theorem prepareBody_fresh (s : Sys) (c : Nat) (w h : Int) (i : Bool) (e : PrepareEnv)
    (hn : 0 ≤ bytesOf e) :
    ∃ s', prepareBody s c w h i e = .returned s' ∧ s'.w.fresh = s.w.fresh + 3 := by
  have hn' : ¬ bytesOf e < 0 := not_lt.mpr hn
  unfold bytesOf at hn'
  rcases s with ⟨⟨oc, od, er, oi, nb, pb, pd, fs, it, ot⟩, ⟨hp, gr, fr, cl⟩⟩
  cases oi <;> cases pb <;> cases pd <;>
    simp [prepareBody, ogCleanupHelper, logCall, hn', bytesOf]

/-- A `prepare` stopped by one of the EGL steps draws no handle. -/
theorem prepare_stopped_fresh (s : Sys) (c : Nat) (w h : Int) (i : Bool) (e : PrepareEnv)
    (hcore : s.st.ogCore = some c) (hegl : pastEGL s e = false) :
    ∃ s', prepare s w h i e = .returned s' ∧ s'.w.fresh = s.w.fresh := by
  unfold prepare
  rw [hcore]
  cases hr : s.st.eglInitRequested
  · simp [pastEGL, hr] at hegl
  · cases hs : e.createPBufferSurface
    · exact ⟨logCall s (.eglCreatePBufferSurface w h), by simp, rfl⟩
    · cases ha : e.activate
      · exact ⟨logCall (logCall s (.eglCreatePBufferSurface w h)) .eglActivate, by simp,
          rfl⟩
      · simp [pastEGL, hr, hs, ha] at hegl

/-- The invariant `PtrInv` survives when the pointers stay and the counter does not
decrease. -/
theorem PtrInv_mono (s t : Sys) (hinv : PtrInv s)
    (h1 : t.st.outputPxBufData = s.st.outputPxBufData)
    (h2 : t.st.outputPxBuf = s.st.outputPxBuf) (h3 : s.w.fresh ≤ t.w.fresh) :
    PtrInv t := by
  obtain ⟨ha, hr⟩ := hinv
  constructor
  · intro a hx
    rw [h1] at hx
    exact lt_of_lt_of_le (ha a hx) h3
  · intro r hx
    rw [h2] at hx
    exact lt_of_lt_of_le (hr r hx) h3

/-- Every entry point that returns keeps `PtrInv`. -/
theorem step_PtrInv (s s' : Sys) (op : Op) (hinv : PtrInv s)
    (hs : step s op = .returned s') : PtrInv s' := by
  cases op with
  | prepare w h i e =>
    simp only [step] at hs
    cases hc : s.st.ogCore with
    | none => simp [prepare, hc] at hs
    | some c =>
      by_cases hegl : pastEGL s e = true
      · obtain ⟨t, ht, _, _, _, htf⟩ := prepare_pastEGL s c w h i e hc hegl
        rw [ht] at hs
        by_cases hn : 0 ≤ bytesOf e
        · obtain ⟨u, hu, _, _, _, _, _, _, _, _, h9, h10, _⟩ :=
            prepareBody_returned t c w h i e hn
          obtain ⟨v, hv, hf⟩ := prepareBody_fresh t c w h i e hn
          rw [hu] at hv
          cases hv
          rw [hu] at hs
          cases hs
          constructor
          · intro a hx
            rw [h9] at hx
            cases hx
            omega
          · intro r hx
            rw [h10] at hx
            cases hx
            omega
        · obtain ⟨u, hu, _⟩ := prepareBody_aborted t c w h i e (not_le.mp hn)
          rw [hu] at hs
          cases hs
      · obtain ⟨u, hu, hst, _⟩ := prepare_stopped s c w h i e hc (by simpa using hegl)
        obtain ⟨v, hv, hf⟩ := prepare_stopped_fresh s c w h i e hc (by simpa using hegl)
        rw [hu] at hv
        cases hv
        rw [hu] at hs
        cases hs
        exact PtrInv_mono s s' hinv (by rw [hst]) (by rw [hst]) (le_of_eq hf.symm)
  | cleanup =>
    rcases s with ⟨⟨oc, od, er, oi, nb, pb, pd, fs, it, ot⟩, ⟨hp, gr, fr, cl⟩⟩
    cases oc <;> cases er <;> cases pb <;> cases pd <;>
      simp [step, cleanup, ogCleanupHelper, logCall] at hs <;> subst hs <;>
      first
        | exact hinv
        | exact ⟨fun a hx => by simp at hx, fun r hx => by simp at hx⟩
  | init p e d =>
    refine PtrInv_mono s s' hinv ?_ ?_ ?_ <;>
      (rcases s with ⟨⟨oc, od, er, oi, nb, pb, pd, fs, it, ot⟩, ⟨hp, gr, fr, cl⟩⟩
       cases oc <;> cases p <;> cases e <;> cases d <;>
         simp [step, init, logCall, bump] at hs <;> subst hs <;>
         first | rfl | (simp only []; omega))
  | setRenderDisp w h o =>
    refine PtrInv_mono s s' hinv ?_ ?_ ?_ <;>
      (rcases s with ⟨⟨oc, od, er, oi, nb, pb, pd, fs, it, ot⟩, ⟨hp, gr, fr, cl⟩⟩
       cases oi <;> cases od <;> simp [step, setRenderDisp, logCall] at hs
       subst hs
       simp)
  | setRenderDispShowMode m =>
    refine PtrInv_mono s s' hinv ?_ ?_ ?_ <;>
      (rcases s with ⟨⟨oc, od, er, oi, nb, pb, pd, fs, it, ot⟩, ⟨hp, gr, fr, cl⟩⟩
       cases oi <;> cases od <;> simp [step, setRenderDispShowMode, logCall] at hs
       split_ifs at hs <;> simp at hs <;> subst hs <;> simp)
  | setInputPixels q =>
    refine PtrInv_mono s s' hinv ?_ ?_ ?_ <;>
      (rcases s with ⟨⟨oc, od, er, oi, nb, pb, pd, fs, it, ot⟩, ⟨hp, gr, fr, cl⟩⟩
       cases oc <;> cases q <;> simp [step, setInputPixels, logCall] at hs
       subst hs
       simp)
  | setInputTexture t =>
    refine PtrInv_mono s s' hinv ?_ ?_ ?_ <;>
      (rcases s with ⟨⟨oc, od, er, oi, nb, pb, pd, fs, it, ot⟩, ⟨hp, gr, fr, cl⟩⟩
       cases oc <;> simp [step, setInputTexture, logCall] at hs
       subst hs
       simp)
  | getOutputPixels =>
    refine PtrInv_mono s s' hinv ?_ ?_ ?_ <;>
      (rcases s with ⟨⟨oc, od, er, oi, nb, pb, pd, fs, it, ot⟩, ⟨hp, gr, fr, cl⟩⟩
       cases oc <;> simp [step, getOutputPixels, logCall] at hs
       subst hs
       simp)
  | process =>
    refine PtrInv_mono s s' hinv ?_ ?_ ?_ <;>
      (rcases s with ⟨⟨oc, od, er, oi, nb, pb, pd, fs, it, ot⟩, ⟨hp, gr, fr, cl⟩⟩
       cases oc <;> simp [step, process, logCall] at hs
       subst hs
       simp)
  | renderOutput =>
    refine PtrInv_mono s s' hinv ?_ ?_ ?_ <;>
      (rcases s with ⟨⟨oc, od, er, oi, nb, pb, pd, fs, it, ot⟩, ⟨hp, gr, fr, cl⟩⟩
       cases oi <;> cases od <;> simp [step, renderOutput, logCall] at hs
       subst hs
       simp)
  | getOutputFrameW =>
    simp only [step] at hs
    cases hs
    exact hinv
  | getOutputFrameH =>
    simp only [step] at hs
    cases hs
    exact hinv

/-- Every call sequence that returns keeps `PtrInv`. -/
theorem run_PtrInv (ops : List Op) (s s' : Sys) (hinv : PtrInv s)
    (h : run ops s = .returned s') : PtrInv s' := by
  induction ops generalizing s with
  | nil =>
    simp only [run] at h
    cases h
    exact hinv
  | cons op ops ih =>
    simp only [run] at h
    cases hstep : step s op with
    | returned s1 =>
      rw [hstep] at h
      exact ih s1 (step_PtrInv s s1 op hinv hstep) h
    | aborted f s1 =>
      rw [hstep] at h
      cases h

/-- Every reachable state satisfies `PtrInv`. -/
theorem Reachable.ptrInv (s : Sys) (hr : Reachable s) : PtrInv s := by
  obtain ⟨ops, h⟩ := hr
  exact run_PtrInv ops Sys.start s
    ⟨fun a hx => by simp [Sys.start] at hx, fun r hx => by simp [Sys.start] at hx⟩ h

/-- A call sequence extended by one call returns exactly when the sequence returns and
the call returns in the state it leaves. -/
theorem run_snoc (l : List Op) (op : Op) (s s' : Sys)
    (h : run (l ++ [op]) s = .returned s') :
    ∃ sp, run l s = .returned sp ∧ step sp op = .returned s' := by
  induction l generalizing s with
  | nil =>
    simp only [List.nil_append, run] at h
    cases hstep : step s op with
    | returned s1 =>
      rw [hstep] at h
      simp only at h
      exact ⟨s, rfl, by rw [hstep, h]⟩
    | aborted f s1 =>
      rw [hstep] at h
      cases h
  | cons x l ih =>
    simp only [List.cons_append, run] at h ⊢
    cases hstep : step s x with
    | returned s1 =>
      rw [hstep] at h
      exact ih s1 h
    | aborted f s1 =>
      rw [hstep] at h
      cases h

/-- In a session, `prepare` calls that get past the EGL steps leave the EGL flag as
`init` set it. -/
theorem run_prepares_req (ie : Bool) (ops : List Op) (s s' : Sys)
    (hinv : BufInv s) (hreq : s.st.eglInitRequested = ie)
    (hall : ops.all (Op.isFullPrepare ie) = true)
    (hrun : run ops s = .returned s') : s'.st.eglInitRequested = ie := by
  induction ops generalizing s with
  | nil =>
    simp only [run] at hrun
    cases hrun
    exact hreq
  | cons op ops ih =>
    simp only [List.all_cons, Bool.and_eq_true] at hall
    cases op with
    | prepare w h i e =>
      have hegl : pastEGL s e = true := by
        have := hall.1
        simpa [Op.isFullPrepare, pastEGL, hreq] using this
      simp only [run, step] at hrun
      cases hp : prepare s w h i e with
      | aborted f u =>
        rw [hp] at hrun
        cases hrun
      | returned u =>
        rw [hp] at hrun
        obtain ⟨h1, h2, h3, h4, _, h6⟩ := prepare_full_BufInv s u w h i e hinv hegl hp
        exact ih u (Or.inr ⟨_, _, _, h1, h2, h3, h4⟩) (by rw [h6, hreq]) hall.2 hrun
    | _ => simp [Op.isFullPrepare] at hall

/-- C2: in any reachable state without PipelineHandle (the process start, or any state
left by a `cleanup`), `init` followed by N >= 1 `prepare` calls that get past the EGL
steps, with any arguments and any reported sizes; `pre` are the first N - 1 of them
and `prepare(w, h, i)` answered by `e` is the N-th. When the calls returned, exactly one
output block and exactly one global reference are live after the N-th, and they are
new ones: the block sits at the handle drawn by this `prepare`, has the byte count of
this `prepare` as its length and is the one `outputPxBufData` points to, the reference
is the one `outputPxBuf` holds, and every block and every global reference that was
live before this `prepare` (those of the `prepare` before it) is no longer live. The
calls do return whenever no requested byte count is negative. -/
theorem one_live_buffer (s0 : Sys) (p ie d : Bool) (pre : List Op) (w h : Int) (i : Bool)
    (e : PrepareEnv) (hr : Reachable s0) (hnone : s0.st.ogCore = none)
    (hall : pre.all (Op.isFullPrepare ie) = true)
    (hlast : Op.isFullPrepare ie (.prepare w h i e) = true) :
    (∀ s, run (.init p ie d :: (pre ++ [Op.prepare w h i e])) s0 = .returned s →
      liveBuffers s = 1 ∧ liveAliases s = 1 ∧
      ∃ sp, run (.init p ie d :: pre) s0 = .returned sp ∧
        (pre ≠ [] → liveBuffers sp = 1 ∧ liveAliases sp = 1) ∧
        s.st.outputPxBufData = some sp.w.fresh ∧
        s.st.outputPxBuf = some (sp.w.fresh + 2) ∧
        s.w.heap = [(sp.w.fresh, bytesOf e)] ∧
        s.w.globalRefs = [sp.w.fresh + 2] ∧
        (∀ b ∈ sp.w.heap, b ∉ s.w.heap) ∧
        (∀ r ∈ sp.w.globalRefs, r ∉ s.w.globalRefs)) ∧
    ((pre ++ [Op.prepare w h i e]).all Op.allocatable = true →
      ∃ s, run (.init p ie d :: (pre ++ [Op.prepare w h i e])) s0 = .returned s) := by
  obtain ⟨s1, hs1, hcore, hreq, g3, g4, g5, g6⟩ := init_returns s0 p ie d hnone
  have hinv1 : BufInv s1 := BufInv_congr s0 s1 (Reachable.bufInv s0 hr) g3 g4 g5 g6
  have hall' : (pre ++ [Op.prepare w h i e]).all (Op.isFullPrepare ie) = true := by
    simp only [List.all_append, List.all_cons, List.all_nil, Bool.and_true,
      Bool.and_eq_true]
    exact ⟨hall, hlast⟩
  constructor
  · intro s hrun
    have hrun1 : run (pre ++ [Op.prepare w h i e]) s1 = .returned s := by
      simpa only [run, step, hs1] using hrun
    obtain ⟨sp, hsp, hstep⟩ := run_snoc pre _ s1 s hrun1
    have hrunp : run (.init p ie d :: pre) s0 = .returned sp := by
      simp only [run, step, hs1, hsp]
    have hinvp : BufInv sp := run_BufInv pre s1 sp hinv1 hsp
    have hptr : PtrInv sp := run_PtrInv _ s0 sp (Reachable.ptrInv s0 hr) hrunp
    have hreqp : sp.st.eglInitRequested = ie :=
      run_prepares_req ie pre s1 sp hinv1 hreq hall hsp
    have hegl : pastEGL sp e = true := by
      simpa [Op.isFullPrepare, pastEGL, hreqp] using hlast
    simp only [step] at hstep
    obtain ⟨h1, h2, h3, h4, _, _⟩ := prepare_full_BufInv sp s w h i e hinvp hegl hstep
    refine ⟨by simp [liveBuffers, h3], by simp [liveAliases, h4], sp, hrunp, ?_, h2, h1, h3,
      h4, ?_, ?_⟩
    · intro hne
      exact run_prepares_one ie pre s1 sp hinv1 hreq hall hne hsp
    · intro b hb hb'
      rw [h3] at hb'
      simp only [List.mem_singleton] at hb'
      rcases hinvp with ⟨_, _, q3, _⟩ | ⟨r, a, n, _, q2, q3, _⟩
      · rw [q3] at hb
        cases hb
      · rw [q3] at hb
        simp only [List.mem_singleton] at hb
        have hlt := hptr.1 a q2
        rw [hb] at hb'
        cases hb'
        omega
    · intro r hb hb'
      rw [h4] at hb'
      simp only [List.mem_singleton] at hb'
      rcases hinvp with ⟨_, _, _, q4⟩ | ⟨r0, a, n, q1, _, _, q4⟩
      · rw [q4] at hb
        cases hb
      · rw [q4] at hb
        simp only [List.mem_singleton] at hb
        have hlt := hptr.2 r0 q1
        omega
  · intro halloc
    obtain ⟨s, hs⟩ := run_prepares_returns ie _ s1 hinv1 hcore hreq hall' halloc
    exact ⟨s, by simp only [run, step, hs1, hs]⟩

/-- What `cleanup` does reset: in every reachable state with a PipelineHandle it returns
with `ogCore` null and no output buffer (`outputPxBuf` and `outputPxBufData` null, no
block and no global reference live), and a following `init` is accepted. -/
theorem cleanup_releases (s : Sys) (hr : Reachable s) (hcore : s.st.ogCore ≠ none) :
    ∃ s', cleanup s = .returned s' ∧
      s'.st.ogCore = none ∧ s'.st.outputPxBuf = none ∧ s'.st.outputPxBufData = none ∧
      liveBuffers s' = 0 ∧ liveAliases s' = 0 ∧
      ∀ p ie d, ∃ s'', init s' p ie d = .returned s'' ∧ s''.st.ogCore ≠ none ∧
        s''.st.eglInitRequested = ie ∧ s''.st.outputPxBuf = none ∧
        s''.st.outputPxBufData = none ∧ liveBuffers s'' = 0 ∧ liveAliases s'' = 0 := by
  obtain ⟨c, hc⟩ := Option.ne_none_iff_exists'.mp hcore
  have hinv := Reachable.bufInv s hr
  have key : ∃ s', cleanup s = .returned s' ∧
      s'.st.ogCore = none ∧ s'.st.outputPxBuf = none ∧ s'.st.outputPxBufData = none ∧
      s'.w.heap = [] ∧ s'.w.globalRefs = [] := by
    rcases s with ⟨⟨oc, od, er, oi, nb, pb, pd, fs, it, ot⟩, ⟨hp, gr, fr, cl⟩⟩
    simp only at hc
    subst hc
    rcases hinv with ⟨h1, h2, h3, h4⟩ | ⟨r, a, n, h1, h2, h3, h4⟩
    · simp only at h1 h2 h3 h4
      subst h1 h2 h3 h4
      cases er <;> simp [cleanup, ogCleanupHelper, logCall]
    · simp only at h1 h2 h3 h4
      subst h1 h2 h3 h4
      cases er <;> simp [cleanup, ogCleanupHelper, logCall]
  obtain ⟨s', h0, h1, h2, h3, h4, h5⟩ := key
  refine ⟨s', h0, h1, h2, h3, by simp [liveBuffers, h4], by simp [liveAliases, h5], ?_⟩
  intro p ie d
  obtain ⟨s'', g0, g1, g2, g3, g4, g5, g6⟩ := init_returns s' p ie d h1
  exact ⟨s'', g0, g1, g2, by rw [g3, h2], by rw [g4, h3], by simp [liveBuffers, g5, h4],
    by simp [liveAliases, g6, h5]⟩

/-- C3 (the code at the failing input): after `init(false, true, true)`,
`setInputTexture(7)` and `prepare(64, 64, true)`, `cleanup` returns with `ogDisp`,
`eglInitRequested`, `ogInitialized`, the byte count, the frame size and both texture ids
still set, so the statics are not those of the process start; and the `init` that
follows yields statics that differ from those the first `init` of the process yielded
(`ogInitialized` true and frame size 64 x 64 instead of false and 0 x 0). -/
theorem cleanup_keeps_statics :
    ∃ s s' t t', run [.init false true true, .setInputTexture 7,
        .prepare 64 64 true env64] Sys.start = .returned s ∧
      cleanup s = .returned s' ∧
      s'.st.ogDisp = some 2 ∧ s'.st.eglInitRequested = true ∧
      s'.st.ogInitialized = true ∧ s'.st.outputPxBufNumBytes = 16384 ∧
      s'.st.outputFrameSize = (64, 64) ∧ s'.st.ogInputTexId = 7 ∧
      s'.st.ogOutputTexId = 3 ∧ s'.st ≠ Sys.start.st ∧
      init s' false true true = .returned t' ∧
      init Sys.start false true true = .returned t ∧
      t.st.ogInitialized = false ∧ t'.st.ogInitialized = true ∧
      t.st.outputFrameSize = (0, 0) ∧ t'.st.outputFrameSize = (64, 64) :=
  ⟨_, _, _, _, rfl, rfl, rfl, rfl, rfl, rfl, rfl, rfl, rfl, by decide, rfl, rfl, rfl, rfl,
    rfl, rfl⟩

/-- C6 (as amended): `prepare` makes no check of the reported size. When the reported
width or height is <= 0 and the call gets past the EGL steps, the prior buffer and its
alias are released all the same: if the byte count is not negative as a `jint` (it is 0
when the width or the height is 0) the call returns with a new block of that length
and that byte count recorded; if it is negative the call aborts in the allocation,
after the release, with no buffer left. -/
theorem prepare_nonpositive_size (s : Sys) (c r a : Nat) (w h : Int) (i : Bool)
    (e : PrepareEnv) (hcore : s.st.ogCore = some c) (hegl : pastEGL s e = true)
    (hbuf : s.st.outputPxBuf = some r) (hdata : s.st.outputPxBufData = some a) :
    (e.getOutputFrameW ≤ 0 ∨ e.getOutputFrameH ≤ 0) →
    (e.getOutputFrameW = 0 ∨ e.getOutputFrameH = 0 → bytesOf e = 0) ∧
    (0 ≤ bytesOf e → ∃ s', prepare s w h i e = .returned s' ∧
      s'.st.outputPxBufNumBytes = bytesOf e ∧
      s'.st.outputPxBufData = some s.w.fresh ∧ s'.st.outputPxBuf = some (s.w.fresh + 2) ∧
      s'.w.heap = (s.w.fresh, bytesOf e) :: s.w.heap.filter (fun b => b.1 != a) ∧
      s'.w.globalRefs = (s.w.fresh + 2) :: s.w.globalRefs.erase r) ∧
    (bytesOf e < 0 → ∃ s', prepare s w h i e = .aborted .badAlloc s' ∧
      s'.st.outputPxBufNumBytes = bytesOf e ∧
      s'.st.outputPxBufData = none ∧ s'.st.outputPxBuf = none ∧
      s'.w.heap = s.w.heap.filter (fun b => b.1 != a) ∧
      s'.w.globalRefs = s.w.globalRefs.erase r) := by
  intro _
  obtain ⟨t, ht, hst, hth, htg, htf⟩ := prepare_pastEGL s c w h i e hcore hegl
  obtain ⟨hcs, hch, hcg⟩ := ogCleanupHelper_of_statics s t hst hth htg
  have hs1 : (ogCleanupHelper s).st.outputPxBuf = none := by
    simp [ogCleanupHelper, hbuf, hdata]
  have hs2 : (ogCleanupHelper s).st.outputPxBufData = none := by
    simp [ogCleanupHelper, hbuf, hdata]
  have hs3 : (ogCleanupHelper s).w.heap = s.w.heap.filter (fun b => b.1 != a) := by
    simp [ogCleanupHelper, hbuf, hdata]
  have hs4 : (ogCleanupHelper s).w.globalRefs = s.w.globalRefs.erase r := by
    simp [ogCleanupHelper, hbuf, hdata]
  refine ⟨?_, ?_, ?_⟩
  · intro hz
    rcases hz with hz | hz <;> simp [bytesOf, hz, wrapInt32]
  · intro hn
    obtain ⟨u, hu, _, _, _, _, _, _, _, h8, h9, h10, h11, h12⟩ :=
      prepareBody_returned t c w h i e hn
    exact ⟨u, by rw [ht, hu], h8, by rw [h9, htf], by rw [h10, htf],
      by rw [h11, hch, hs3, htf], by rw [h12, hcg, hs4, htf]⟩
  · intro hn
    obtain ⟨u, hu, h1, h2, h3, h4, h5⟩ := prepareBody_aborted t c w h i e hn
    exact ⟨u, by rw [ht, hu], h1, by rw [h2, hcs, hs2], by rw [h3, hcs, hs1],
      by rw [h4, hch, hs3], by rw [h5, hcg, hs4]⟩

/-- Witness for `prepare_nonpositive_size`: a 0 x 5 output reported in `prepared64`. -/
theorem prepare_nonpositive_size_witness :
    (env0x5.getOutputFrameW ≤ 0 ∨ env0x5.getOutputFrameH ≤ 0) ∧
    bytesOf env0x5 = 0 ∧
    ∃ s', prepare prepared64 64 64 true env0x5 = .returned s' ∧
      s'.st.outputPxBufNumBytes = bytesOf env0x5 ∧
      s'.st.outputPxBufData = some 5 ∧ s'.st.outputPxBuf = some 7 ∧
      s'.w.heap = (5, bytesOf env0x5) :: prepared64.w.heap.filter (fun b => b.1 != 2) ∧
      s'.w.globalRefs = 7 :: prepared64.w.globalRefs.erase 4 :=
  ⟨by decide,
   (prepare_nonpositive_size prepared64 1 4 2 64 64 true env0x5 rfl rfl rfl rfl
      (by decide)).1 (by decide),
   (prepare_nonpositive_size prepared64 1 4 2 64 64 true env0x5 rfl rfl rfl rfl
      (by decide)).2.1 (by decide)⟩

/-- C6 (counterexample): in `prepared64` (a 16384-byte block at 2 with alias 4) a
`prepare` for which the facade reports a 0 x 5 output does not fail: it returns, the
prior block and alias are released, and a new empty block with byte count 0 replaces
them. -/
theorem prepare_zero_size_replaces_buffer :
    ∃ s', prepare prepared64 64 64 true env0x5 = .returned s' ∧
      prepared64.st.outputPxBufData = some 2 ∧ prepared64.st.outputPxBuf = some 4 ∧
      prepared64.st.outputPxBufNumBytes = 16384 ∧ prepared64.w.heap = [(2, 16384)] ∧
      prepared64.w.globalRefs = [4] ∧
      s'.st.outputPxBufData = some 5 ∧ s'.st.outputPxBuf = some 7 ∧
      s'.st.outputPxBufNumBytes = 0 ∧ s'.w.heap = [(5, 0)] ∧ s'.w.globalRefs = [7] :=
  ⟨_, rfl, rfl, rfl, rfl, rfl, rfl, rfl, rfl, rfl, rfl, rfl⟩

/-- Witness for `one_live_buffer`: from the process start, `prepare` for a 64 x 64 and
then a 128 x 256 output. The second leaves the 131072-byte block at 5 with alias 7; the
16384-byte block at 2 and the alias 4 of the first are gone. -/
theorem one_live_buffer_witness :
    Reachable Sys.start ∧ Sys.start.st.ogCore = none ∧
    run [.init false false false, .prepare 64 64 true env64] Sys.start
      = .returned prepared64 ∧
    prepared64.w.heap = [(2, 16384)] ∧ prepared64.w.globalRefs = [4] ∧
    prepared64.w.fresh = 5 ∧ bytesOf env128x256 = 131072 ∧
    ∃ s, run (.init false false false ::
        ([Op.prepare 64 64 true env64] ++ [Op.prepare 128 256 true env128x256]))
        Sys.start = .returned s ∧ liveBuffers s = 1 ∧ liveAliases s = 1 ∧
      ∃ sp, run (.init false false false :: [Op.prepare 64 64 true env64]) Sys.start
          = .returned sp ∧
        ([Op.prepare 64 64 true env64] ≠ [] → liveBuffers sp = 1 ∧ liveAliases sp = 1) ∧
        s.st.outputPxBufData = some sp.w.fresh ∧
        s.st.outputPxBuf = some (sp.w.fresh + 2) ∧
        s.w.heap = [(sp.w.fresh, bytesOf env128x256)] ∧
        s.w.globalRefs = [sp.w.fresh + 2] ∧
        (∀ b ∈ sp.w.heap, b ∉ s.w.heap) ∧
        (∀ r ∈ sp.w.globalRefs, r ∉ s.w.globalRefs) :=
  ⟨⟨[], rfl⟩, rfl, rfl, rfl, rfl, rfl, by decide,
   Exists.elim
    ((one_live_buffer Sys.start false false false [Op.prepare 64 64 true env64]
      128 256 true env128x256 ⟨[], rfl⟩ rfl (by decide) (by decide)).2 (by decide))
    (fun s hs => ⟨s, hs,
      (one_live_buffer Sys.start false false false [Op.prepare 64 64 true env64]
        128 256 true env128x256 ⟨[], rfl⟩ rfl (by decide) (by decide)).1 s hs⟩)⟩

/-- Witness for `prepare_egl_failure`: surface creation fails in `eglPrepared64`. -/
theorem prepare_egl_failure_witness :
    eglPrepared64.st.ogCore ≠ none ∧ eglPrepared64.st.eglInitRequested = true ∧
    envNoSurface.createPBufferSurface = false ∧
    ∃ s', prepare eglPrepared64 128 256 true envNoSurface = .returned s' ∧
      s'.st = eglPrepared64.st ∧ s'.w.heap = eglPrepared64.w.heap ∧
      s'.w.globalRefs = eglPrepared64.w.globalRefs ∧
      s'.w.calls = eglPrepared64.w.calls ++
        (if envNoSurface.createPBufferSurface then
          [.eglCreatePBufferSurface 128 256, .eglActivate]
         else [.eglCreatePBufferSurface 128 256]) :=
  ⟨by decide, rfl, rfl,
    prepare_egl_failure eglPrepared64 128 256 true envNoSurface (by decide) rfl (Or.inl rfl)⟩

/-- Witness for `frame_size_queries`: `prepare(128, 128, true)` with a reported 64 x 64
output, followed by input, processing, readback and size-query calls. -/
theorem frame_size_queries_witness :
    ∃ s1 s2, prepare plainSession 128 128 true env64 = .returned s1 ∧
      run [.setInputPixels (some 9), .setInputTexture 7, .process, .getOutputPixels,
        .getOutputFrameW] s1 = .returned s2 ∧
      getOutputFrameW s1 = 64 ∧ getOutputFrameH s1 = 64 ∧
      getOutputFrameW s2 = 64 ∧ getOutputFrameH s2 = 64 :=
  ⟨_, _, rfl, rfl,
    frame_size_queries plainSession _ _ 128 128 true env64
      [.setInputPixels (some 9), .setInputTexture 7, .process, .getOutputPixels,
        .getOutputFrameW] rfl rfl rfl rfl⟩

/-- The operations that assert `ogCore` abort on that assertion, with nothing changed
and no facade called, when no PipelineHandle exists. -/
theorem asserts_without_handle (s : Sys) (hcore : s.st.ogCore = none) (w h : Int)
    (i : Bool) (e : PrepareEnv) (px : Option Nat) :
    prepare s w h i e = .aborted .assertion s ∧
    setInputPixels s px = .aborted .assertion s ∧
    process s = .aborted .assertion s ∧
    getOutputPixels s = .aborted .assertion s ∧
    cleanup s = .aborted .assertion s := by
  simp [prepare, setInputPixels, process, getOutputPixels, cleanup, hcore]

/-- The display operations abort on their assertion, with nothing changed and no facade
called, when `ogDisp` is null or `ogInitialized` is false. -/
theorem display_asserts (s : Sys) (hd : s.st.ogDisp = none ∨ s.st.ogInitialized = false)
    (w h o m : Int) :
    setRenderDisp s w h o = .aborted .assertion s ∧
    setRenderDispShowMode s m = .aborted .assertion s ∧
    renderOutput s = .aborted .assertion s := by
  rcases hd with hd | hd
  · cases hi : s.st.ogInitialized <;>
      simp [setRenderDisp, setRenderDispShowMode, renderOutput, hd, hi]
  · cases hi : s.st.ogDisp <;>
      simp [setRenderDisp, setRenderDispShowMode, renderOutput, hd, hi]

/-- The entry point `setRenderDispShowMode` aborts on its assertion, whatever the mode, while the stored
input texture id is 0. -/
theorem showMode_asserts_unbound (s : Sys) (m : Int) (hid : s.st.ogInputTexId = 0) :
    setRenderDispShowMode s m = .aborted .assertion s := by
  cases hi : s.st.ogInitialized <;> cases hdisp : s.st.ogDisp <;>
    simp [setRenderDispShowMode, hid, hi, hdisp]

/-- A call that is no `setInputTexture` with a non-zero id leaves an input texture id
of 0 at 0. -/
theorem step_inputTexId (s s' : Sys) (op : Op) (hop : op.bindsInputTexture = false)
    (hid : s.st.ogInputTexId = 0) (hs : step s op = .returned s') :
    s'.st.ogInputTexId = 0 := by
  rcases s with ⟨⟨oc, od, er, oi, nb, pb, pd, fs, it, ot⟩, ⟨hp, gr, fr, cl⟩⟩
  simp only at hid
  subst hid
  cases op with
  | init p e d =>
    cases oc <;> cases p <;> cases e <;> cases d <;>
      simp [step, init, logCall, bump] at hs <;> subst hs <;> rfl
  | cleanup =>
    cases oc <;> cases er <;> cases pb <;> cases pd <;>
      simp [step, cleanup, ogCleanupHelper, logCall] at hs <;> subst hs <;> rfl
  | prepare w h i e =>
    simp only [step] at hs
    cases oc with
    | none => simp [prepare] at hs
    | some c =>
      by_cases hegl : pastEGL ⟨⟨some c, od, er, oi, nb, pb, pd, fs, 0, ot⟩, ⟨hp, gr, fr, cl⟩⟩ e
          = true
      · obtain ⟨t, ht, hst, _⟩ := prepare_pastEGL _ c w h i e rfl hegl
        rw [ht] at hs
        by_cases hn : 0 ≤ bytesOf e
        · obtain ⟨u, hu, _, _, _, _, h5, _⟩ := prepareBody_returned t c w h i e hn
          rw [hu] at hs
          cases hs
          rw [h5, hst]
        · obtain ⟨u, hu, _⟩ := prepareBody_aborted t c w h i e (not_le.mp hn)
          rw [hu] at hs
          cases hs
      · obtain ⟨u, hu, hst, _⟩ := prepare_stopped _ c w h i e rfl (by simpa using hegl)
        rw [hu] at hs
        cases hs
        rw [hst]
  | setRenderDisp w h o =>
    cases oi <;> cases od <;> simp [step, setRenderDisp, logCall] at hs
    subst hs
    rfl
  | setRenderDispShowMode m =>
    cases oi <;> cases od <;> simp [step, setRenderDispShowMode, logCall] at hs
  | setInputPixels q =>
    cases oc <;> cases q <;> simp [step, setInputPixels, logCall] at hs
    subst hs
    rfl
  | setInputTexture t =>
    simp [Op.bindsInputTexture] at hop
    cases oc <;> simp [step, setInputTexture, logCall] at hs
    subst hs
    exact hop
  | getOutputPixels =>
    cases oc <;> simp [step, getOutputPixels, logCall] at hs
    subst hs
    rfl
  | process =>
    cases oc <;> simp [step, process, logCall] at hs
    subst hs
    rfl
  | renderOutput =>
    cases oi <;> cases od <;> simp [step, renderOutput, logCall] at hs
    subst hs
    rfl
  | getOutputFrameW =>
    simp only [step] at hs
    cases hs
    rfl
  | getOutputFrameH =>
    simp only [step] at hs
    cases hs
    rfl

/-- While no `setInputTexture` with a non-zero id has been made since the start of the
process, `setRenderDispShowMode` aborts on its assertion and calls no facade. -/
theorem showMode_unbound_since_start (ops : List Op) (s : Sys) (m : Int)
    (hops : ops.all (fun op => !op.bindsInputTexture) = true)
    (hrun : run ops Sys.start = .returned s) :
    setRenderDispShowMode s m = .aborted .assertion s := by
  have key : ∀ (l : List Op) (a b : Sys), a.st.ogInputTexId = 0 →
      l.all (fun op => !op.bindsInputTexture) = true → run l a = .returned b →
      b.st.ogInputTexId = 0 := by
    intro l
    induction l with
    | nil =>
      intro a b ha _ hr
      simp only [run] at hr
      cases hr
      exact ha
    | cons op l ih =>
      intro a b ha hl hr
      simp only [List.all_cons, Bool.and_eq_true, Bool.not_eq_true'] at hl
      simp only [run] at hr
      cases hstep : step a op with
      | returned a1 =>
        rw [hstep] at hr
        exact ih a1 b (step_inputTexId a a1 op hl.1 ha hstep) hl.2 hr
      | aborted f a1 =>
        rw [hstep] at hr
        cases hr
  exact showMode_asserts_unbound s m (key ops Sys.start s rfl hops hrun)

/-- While no `init` since the start of the process asked for a render display, `ogDisp` is
null, so `renderOutput` aborts on its assertion and calls no facade. -/
theorem render_without_display_since_start (ops : List Op) (s : Sys)
    (hops : ops.all (fun op => !op.createsDisplay) = true)
    (hrun : run ops Sys.start = .returned s) :
    renderOutput s = .aborted .assertion s := by
  have hstep : ∀ (a b : Sys) (op : Op), op.createsDisplay = false → a.st.ogDisp = none →
      step a op = .returned b → b.st.ogDisp = none := by
    intro a b op hop ha hs
    cases op with
    | prepare w h i e =>
      simp only [step] at hs
      cases hc : a.st.ogCore with
      | none => simp [prepare, hc] at hs
      | some c =>
        by_cases hegl : pastEGL a e = true
        · obtain ⟨t, ht, hst, _⟩ := prepare_pastEGL a c w h i e hc hegl
          rw [ht] at hs
          by_cases hn : 0 ≤ bytesOf e
          · obtain ⟨u, hu, _, h2, _⟩ := prepareBody_returned t c w h i e hn
            rw [hu] at hs
            cases hs
            rw [h2, hst, ha]
          · obtain ⟨u, hu, _⟩ := prepareBody_aborted t c w h i e (not_le.mp hn)
            rw [hu] at hs
            cases hs
        · obtain ⟨u, hu, hst, _⟩ := prepare_stopped a c w h i e hc (by simpa using hegl)
          rw [hu] at hs
          cases hs
          rw [hst, ha]
    | init p e d =>
      simp only [Op.createsDisplay] at hop
      subst hop
      rcases a with ⟨⟨oc, od, er, oi, nb, pb, pd, fs, it, ot⟩, ⟨hp, gr, fr, cl⟩⟩
      simp only at ha
      subst ha
      cases oc <;> cases p <;> cases e <;>
        simp [step, init, logCall, bump] at hs <;> subst hs <;> rfl
    | cleanup =>
      rcases a with ⟨⟨oc, od, er, oi, nb, pb, pd, fs, it, ot⟩, ⟨hp, gr, fr, cl⟩⟩
      simp only at ha
      subst ha
      cases oc <;> cases er <;> cases pb <;> cases pd <;>
        simp [step, cleanup, ogCleanupHelper, logCall] at hs <;> subst hs <;> rfl
    | setRenderDisp w h o =>
      simp [step, (display_asserts a (Or.inl ha) w h o 0).1] at hs
    | setRenderDispShowMode m =>
      simp [step, (display_asserts a (Or.inl ha) 0 0 0 m).2.1] at hs
    | renderOutput =>
      simp [step, (display_asserts a (Or.inl ha) 0 0 0 0).2.2] at hs
    | setInputPixels q =>
      rcases a with ⟨⟨oc, od, er, oi, nb, pb, pd, fs, it, ot⟩, ⟨hp, gr, fr, cl⟩⟩
      cases oc <;> cases q <;> simp [step, setInputPixels, logCall] at hs
      subst hs
      exact ha
    | setInputTexture t =>
      rcases a with ⟨⟨oc, od, er, oi, nb, pb, pd, fs, it, ot⟩, ⟨hp, gr, fr, cl⟩⟩
      cases oc <;> simp [step, setInputTexture, logCall] at hs
      subst hs
      exact ha
    | getOutputPixels =>
      rcases a with ⟨⟨oc, od, er, oi, nb, pb, pd, fs, it, ot⟩, ⟨hp, gr, fr, cl⟩⟩
      cases oc <;> simp [step, getOutputPixels, logCall] at hs
      subst hs
      exact ha
    | process =>
      rcases a with ⟨⟨oc, od, er, oi, nb, pb, pd, fs, it, ot⟩, ⟨hp, gr, fr, cl⟩⟩
      cases oc <;> simp [step, process, logCall] at hs
      subst hs
      exact ha
    | getOutputFrameW =>
      simp only [step] at hs
      cases hs
      exact ha
    | getOutputFrameH =>
      simp only [step] at hs
      cases hs
      exact ha
  have key : ∀ (l : List Op) (a b : Sys), a.st.ogDisp = none →
      l.all (fun op => !op.createsDisplay) = true → run l a = .returned b →
      b.st.ogDisp = none := by
    intro l
    induction l with
    | nil =>
      intro a b ha _ hr
      simp only [run] at hr
      cases hr
      exact ha
    | cons op l ih =>
      intro a b ha hl hr
      simp only [List.all_cons, Bool.and_eq_true, Bool.not_eq_true'] at hl
      simp only [run] at hr
      cases hs : step a op with
      | returned a1 =>
        rw [hs] at hr
        exact ih a1 b (hstep a a1 op hl.1 ha hs) hl.2 hr
      | aborted f a1 =>
        rw [hs] at hr
        cases hr
  exact (display_asserts s (Or.inl (key ops Sys.start s rfl hops hrun)) 0 0 0 0).2.2

/-- C4 (the code at the failing input): `init`, `prepare`, `cleanup`, `init`, `prepare`.
The handle of the second session is 5; the log shows `Core::prepare` on it and no
`Core::init`, because `ogInitialized` is still true from the first session. -/
theorem second_session_skips_core_init :
    ∃ s, run [.init false false false, .prepare 64 64 true env64, .cleanup,
        .init false false false, .prepare 64 64 true env64] Sys.start = .returned s ∧
      s.st.ogCore = some 5 ∧
      s.w.calls = [.coreGetInstance 1, .ogPipelineSetup 1, .coreInit 1,
        .corePrepare 1 64 64 .GL_RGBA, .coreGetOutputFrameW 1, .coreGetOutputFrameH 1,
        .coreGetOutputTexId 1, .coreDestroy, .coreGetInstance 5, .ogPipelineSetup 5,
        .corePrepare 5 64 64 .GL_RGBA, .coreGetOutputFrameW 5, .coreGetOutputFrameH 5,
        .coreGetOutputTexId 5] ∧
      Call.corePrepare 5 64 64 .GL_RGBA ∈ s.w.calls ∧ Call.coreInit 5 ∉ s.w.calls :=
  ⟨_, rfl, rfl, rfl, by decide, by decide⟩

/-- C7 (the code at the failing input): a session with display, `cleanup`, then a
session whose `init` has `createRenderDisp = false`. `renderOutput` passes its assertion
and calls `render()` on the display handle 2 of the first session. -/
theorem stale_display_renders :
    ∃ s, run [.init false false true, .prepare 64 64 true env64, .cleanup,
        .init false false false, .renderOutput] Sys.start = .returned s ∧
      s.st.ogCore = some 6 ∧ s.st.ogDisp = some 2 ∧
      s.w.calls = [.coreGetInstance 1, .ogPipelineSetup 1, .coreCreateRenderDisplay 1 2,
        .coreInit 1, .corePrepare 1 64 64 .GL_RGBA, .coreGetOutputFrameW 1,
        .coreGetOutputFrameH 1, .coreGetOutputTexId 1, .coreDestroy, .coreGetInstance 6,
        .ogPipelineSetup 6, .dispRender 2] :=
  ⟨_, rfl, rfl, rfl, rfl⟩

/-- C8 (the code at the failing input): `setInputTexture(7)` in a first session,
`cleanup`, then a session with display in which no `setInputTexture` is called.
`setRenderDispShowMode(INPUT)` passes its assertions and calls `useTexture` with the
id 7 of the first session. -/
theorem stale_input_texture_shown :
    ∃ s, run [.init false false false, .setInputTexture 7, .cleanup,
        .init false false true, .prepare 64 64 true env64,
        .setRenderDispShowMode RENDER_DISP_MODE_INPUT] Sys.start = .returned s ∧
      s.st.ogInputTexId = 7 ∧
      s.w.calls = [.coreGetInstance 1, .ogPipelineSetup 1,
        .coreSetInputTexId 1 7 .GL_TEXTURE_EXTERNAL_OES, .coreDestroy, .coreGetInstance 2,
        .ogPipelineSetup 2, .coreCreateRenderDisplay 2 3, .coreInit 2,
        .corePrepare 2 64 64 .GL_RGBA, .coreGetOutputFrameW 2, .coreGetOutputFrameH 2,
        .coreGetOutputTexId 2, .dispUseTexture 3 7 1 .GL_TEXTURE_EXTERNAL_OES] :=
  ⟨_, rfl, rfl, rfl⟩

/-- C9 (the code at the failing inputs): before any `init`, `setInputTexture(5)` meets
no assertion and dereferences the null `ogCore`; and after a session with display has
been ended by `cleanup`, `setRenderDisp` and `renderOutput` pass their assertion with
`ogCore` absent and call the display facade. -/
theorem no_handle_not_asserted :
    Sys.start.st.ogCore = none ∧
    step Sys.start (.setInputTexture 5) = .aborted .nullDeref Sys.start ∧
    step Sys.start (.setInputTexture 5) ≠ .aborted .assertion Sys.start ∧
    ∃ s s1 s2, run [.init false false true, .prepare 64 64 true env64, .cleanup]
        Sys.start = .returned s ∧ s.st.ogCore = none ∧
      step s (.setRenderDisp 10 10 0) = .returned s1 ∧
      s1.w.calls = s.w.calls ++
        [.dispSetOutputSize 2 10 10, .dispSetOutputRenderOrientation 2 0] ∧
      step s .renderOutput = .returned s2 ∧
      s2.w.calls = s.w.calls ++ [.dispRender 2] :=
  ⟨rfl, rfl, by decide, _, _, _, rfl, rfl, rfl, rfl, rfl, rfl⟩

end OgJni
